import Mathlib

/-!
Shallow embedding of the session-state coordination and token-acquisition
orchestration core of a client-side MSAL authentication wrapper.

The embedding covers, translated from the JavaScript source:
  - untyped JS/JSON values (cons-encoded, so that equality is derivable);
  - the reconciling session-state setter `setState` of the
    AuthenticationService (generic in the value type, since the source
    compares fields with the strict `!==` operator, i.e. a decidable
    equality on values-as-references);
  - the Observer publish/subscribe primitive (`subscribe`, `unsubscribe`,
    `trigger`);
  - the browser-storage cache layer (`write`, `read`, `dateNextDays`,
    `cacheAsyncCallback`), with JSON serialization abstracted as a codec
    (the JSON builtins are browser primitives, external to the repo); a
    small executable codec `jsonLite` instantiates it for concrete runs;
  - the AuthenticationService operations `init`, `isAuthenticated`,
    `login`, `acquireTokenInCache`, `acquireTokenSilent`, `acquireToken`
    and `getRoles`, as explicit state passing over a service record, with
    provider invocations counted by instrumentation fields.
-/

namespace ReactMsal

/-- Untyped JavaScript/JSON values.  Arrays and objects are cons-encoded
(rather than nested lists) so that `DecidableEq` derives structurally. -/
inductive JsVal where
  | jundef
  | jnull
  | jbool (b : Bool)
  | jnum (n : Int)
  | jstr (s : String)
  | jarrNil
  | jarrCons (head tail : JsVal)
  | jobjNil
  | jobjCons (key : String) (value : JsVal) (rest : JsVal)
deriving DecidableEq, Repr

/-- JavaScript truthiness of a value (`!value` is its negation).
Empty arrays and empty objects are truthy in JS. -/
def JsVal.truthy : JsVal → Bool
  | .jundef => false
  | .jnull => false
  | .jbool b => b
  | .jnum n => n != 0
  | .jstr s => s != ""
  | _ => true

/-- Property access `v[key]` on an object value; `none` models `undefined`
(also for non-object receivers, whose own properties we do not model). -/
def JsVal.getProp : JsVal → String → Option JsVal
  | .jobjCons k v rest, key => if k = key then some v else rest.getProp key
  | _, _ => none

/-- Truthiness of `v[key]` (`undefined`, hence falsy, when absent). -/
def JsVal.propTruthy (v : JsVal) (key : String) : Bool :=
  match v.getProp key with
  | some w => w.truthy
  | none => false

/-- JavaScript runtime errors and thrown values, as observed by the code
under verification (only the distinctions the code inspects are kept). -/
inductive JsErr where
  | typeError (msg : String)
  | parseError (msg : String)
  | msalErr (errorCode : String)
  | errMsg (msg : String)
deriving DecidableEq, Repr

/-- The `errorCode` property read by the catch handler of
`acquireTokenInCache`; `none` models `undefined` (e.g. on a TypeError). -/
def JsErr.errorCode : JsErr → Option String
  | .msalErr c => some c
  | _ => none

/-! ## JS objects as association lists (generic value type)

The session-state object and the Observer registry are JS objects whose
values the source compares only with `!==`/truthiness, so they are
embedded generically over a value type with decidable equality. -/

/-- A JS object with values of type `V`: own properties in insertion
order. -/
abbrev Obj (V : Type) := List (String × V)

/-- Property read `o[key]`; `none` models `undefined`. -/
def getKey {V : Type} : Obj V → String → Option V
  | [], _ => none
  | (k, v) :: rest, key => if k = key then some v else getKey rest key

/-- Property assignment `o[key] = v`: replaces in place when the key
exists, appends otherwise (JS insertion-order semantics). -/
def setKey {V : Type} : Obj V → String → V → Obj V
  | [], key, v => [(key, v)]
  | (k, w) :: rest, key, v =>
    if k = key then (key, v) :: rest else (k, w) :: setKey rest key v

/-- Embeds `Object.keys o`. -/
def keysOf {V : Type} (o : Obj V) : List String := o.map Prod.fst

/-- Spread merge `\x7b...a, ...b\x7d`: keys of `a` keep their position,
with the value from `b` when `b` also has the key; new keys of `b` are
appended in order. -/
def mergeObj {V : Type} (a b : Obj V) : Obj V :=
  a.map (fun kv => (kv.1, (getKey b kv.1).getD kv.2)) ++
    b.filter (fun kv => (getKey a kv.1).isNone)

theorem getKey_setKey_self {V : Type} (o : Obj V) (key : String) (v : V) :
    getKey (setKey o key v) key = some v := by
  induction o with
  | nil => simp [setKey, getKey]
  | cons kv rest ih =>
    by_cases h : kv.1 = key
    · simp [setKey, h, getKey]
    · simpa [setKey, h, getKey] using ih

/-! ## Session State Store: the reconciling setter

Source (part_003, lines 89-106): `setState` builds
`newState = \x7b...state, ...changes\x7d`, loops over `Object.keys(newState)`
and, at the first key whose value differs (`!==`) from the prior state,
stores `newState`, broadcasts it through the observer, and returns it;
when no key differs it returns the untouched prior state. -/

/-- The `for (let key of Object.keys(newState))` loop of `setState`:
returns the state to store together with whether the observer was
triggered. -/
def setStateLoop {V : Type} [DecidableEq V] (state newState : Obj V) :
    List String → Obj V × Bool
  | [] => (state, false)
  | k :: ks =>
    if getKey state k ≠ getKey newState k then (newState, true)
    else setStateLoop state newState ks

/-- Embeds `AuthenticationService.setState(changes)`: first component is the
stored (and returned) state, second is whether `observer.trigger` fired. -/
def setState {V : Type} [DecidableEq V] (state changes : Obj V) : Obj V × Bool :=
  let newState := mergeObj state changes
  setStateLoop state newState (keysOf newState)

theorem setStateLoop_eq {V : Type} [DecidableEq V] (state newState : Obj V)
    (ks : List String) :
    setStateLoop state newState ks =
      if ks.any (fun k => getKey state k ≠ getKey newState k) then (newState, true)
      else (state, false) := by
  induction ks with
  | nil => simp [setStateLoop]
  | cons k ks ih =>
    by_cases h : getKey state k = getKey newState k <;>
      simp [setStateLoop, h, ih]

/-- C2: the reconciling setter broadcasts and replaces the stored state
if and only if at least one field of the merged state differs (decidable
value equality, the embedding of the strict `!==` comparison) from the
prior state; otherwise the prior state is kept untouched and no broadcast
occurs; the resulting state is returned (as the stored state) either
way. -/
theorem setState_trigger_iff {V : Type} [DecidableEq V] (state changes : Obj V) :
    ((setState state changes).2 = true ↔
      ∃ k ∈ keysOf (mergeObj state changes),
        getKey state k ≠ getKey (mergeObj state changes) k) ∧
    (setState state changes).1 =
      (if (setState state changes).2 then mergeObj state changes else state) := by
  unfold setState
  rw [setStateLoop_eq]
  by_cases h : ((keysOf (mergeObj state changes)).any
      (fun k => decide (getKey state k ≠ getKey (mergeObj state changes) k))) = true
  · rw [if_pos h]
    refine ⟨⟨fun _ => ?_, fun _ => rfl⟩, rfl⟩
    simpa using List.any_eq_true.mp h
  · rw [if_neg h]
    refine ⟨⟨fun hf => absurd hf Bool.false_ne_true, fun hex => ?_⟩, rfl⟩
    exact absurd (List.any_eq_true.mpr (by simpa using hex)) h

/-- Witness for C2 at a concrete state and change set. -/
theorem setState_trigger_iff_witness :
    (((setState ([] : Obj Bool) [("authenticated", true)]).2 = true ↔
      ∃ k ∈ keysOf (mergeObj ([] : Obj Bool) [("authenticated", true)]),
        getKey ([] : Obj Bool) k ≠
          getKey (mergeObj ([] : Obj Bool) [("authenticated", true)]) k) ∧
    (setState ([] : Obj Bool) [("authenticated", true)]).1 =
      (if (setState ([] : Obj Bool) [("authenticated", true)]).2 then
        mergeObj ([] : Obj Bool) [("authenticated", true)] else ([] : Obj Bool))) :=
  setState_trigger_iff ([] : Obj Bool) [("authenticated", true)]

/-! ## Observer (aad.types.js companion file, lines 266-312)

`subscriptors` is a JS object mapping id strings to callbacks;
`unsubscribe` assigns `undefined` (modeled as `none`), so values are
`Option CB`. -/

/-- Embeds `Observer.subscribe(callback)`: the id is `Date.now().toString()`
(`now` is the wall clock in milliseconds), and the callback is stored
with `this.subscriptors[id] = callback`. -/
def subscribe {B : Type} (subscriptors : Obj (Option B)) (callback : B)
    (now : Nat) : String × Obj (Option B) :=
  let id := toString now
  (id, setKey subscriptors id (some callback))

/-- Embeds `Observer.unsubscribe(id)`: sets the entry to `undefined`. -/
def unsubscribe {B : Type} (subscriptors : Obj (Option B)) (id : String) :
    Obj (Option B) :=
  setKey subscriptors id none

/-- The `for (let callback of Object.values(this.subscriptors))` loop of
`Observer.trigger`: callbacks are invoked in order (skipping falsy,
i.e. unsubscribed, entries); the result records the indices of the
callbacks actually invoked and the exception, if any, that escaped the
loop.  There is no try/catch in the source, so a throwing callback stops
the loop. -/
def triggerGo {P : Type} (payload : P) :
    Nat → List (Option (P → Except JsErr Unit)) → List Nat × Option JsErr
  | _, [] => ([], none)
  | i, none :: rest => triggerGo payload (i + 1) rest
  | i, some cb :: rest =>
    match cb payload with
    | .ok _ =>
      let r := triggerGo payload (i + 1) rest
      (i :: r.1, r.2)
    | .error e => ([i], some e)

/-- Embeds `Observer.trigger(args)` over the values of the `subscriptors`
object. -/
def trigger {P : Type} (subscriptorValues : List (Option (P → Except JsErr Unit)))
    (payload : P) : List Nat × Option JsErr :=
  triggerGo payload 0 subscriptorValues

/-- C7: the source generates subscription ids with
`Date.now().toString()`; two subscriptions within the same clock tick
(here, millisecond 1700000000000) receive the SAME id, and the second
registration displaces the first callback — contradicting the claim that
the ids are distinct and no displacement occurs. -/
theorem subscribe_same_tick_collision :
    (subscribe (B := Nat) [] 1 1700000000000).1 =
      (subscribe (B := Nat) (subscribe (B := Nat) [] 1 1700000000000).2
        2 1700000000000).1 ∧
    (subscribe (B := Nat) (subscribe (B := Nat) [] 1 1700000000000).2
        2 1700000000000).2 = [(toString (1700000000000 : Nat), some 2)] := by
  constructor
  · rfl
  · rfl

/-- C8: `Observer.trigger` does not isolate callback failures: with two
live registered callbacks of which the first throws, only index 0 is
invoked — the second live callback is never run and the exception escapes
the loop, contradicting the claim that every other live callback is still
invoked. -/
theorem trigger_not_isolated :
    trigger (P := Unit)
      [some (fun _ => .error (.errMsg "boom")), some (fun _ => .ok ())] () =
      ([0], some (.errMsg "boom")) := rfl

/-! ## Browser storage and JSON serialization (part_000, cache.util)

`window[storageType]` is modeled as a capacity-bounded key-value store of
strings: `setItem` fails (models a thrown QuotaExceededError) when the
store would exceed its capacity.  `JSON.stringify`/`JSON.parse` are
browser builtins, external to the repository; they are abstracted as a
codec whose `none` results model thrown errors, and instantiated below by
the executable `jsonLite` codec. -/

/-- Abstract JSON codec.  `stringify v = none` models a throw of
`JSON.stringify` (e.g. circular value); `parse s = none` models a thrown
SyntaxError of `JSON.parse`. -/
structure Codec where
  stringify : JsVal → Option String
  parse : String → Option JsVal

/-- A browser storage object (`localStorage`/`sessionStorage`). -/
structure Storage where
  entries : List (String × String)
  capacity : Nat
deriving DecidableEq, Repr

/-- Bytes used by the stored entries. -/
def Storage.usage (st : Storage) : Nat :=
  (st.entries.map (fun kv => kv.1.length + kv.2.length)).sum

/-- Embeds `window[storageType].getItem(key)`; `none` models `null`. -/
def Storage.getItem (st : Storage) (key : String) : Option String :=
  getKey st.entries key

/-- Embeds `window[storageType].setItem(key, s)`; `none` models a thrown
QuotaExceededError. -/
def Storage.setItem (st : Storage) (key s : String) : Option Storage :=
  let st' : Storage := { st with entries := setKey st.entries key s }
  if st'.usage ≤ st.capacity then some st' else none

/-- Embeds `window[storageType].clear()`. -/
def Storage.clear (st : Storage) : Storage := { st with entries := [] }

/-- String coercion applied by `setItem(key, value)` on the `!value`
branch of `write` (only falsy values reach it). -/
def coerceToString : JsVal → String
  | .jundef => "undefined"
  | .jnull => "null"
  | .jbool b => if b then "true" else "false"
  | .jnum n => toString n
  | .jstr s => s
  | _ => "[object Object]"

/-- The string `write` attempts to store: the source stores the raw value
when `!value` (coerced to a string by the storage API) and
`JSON.stringify(value)` otherwise; `none` models a serialization
throw. -/
def storedString (c : Codec) (value : JsVal) : Option String :=
  if value.truthy then c.stringify value else some (coerceToString value)

/-- Embeds `write(key, value, storageType)` (part_000, lines 10-23): stores the
value under the key inside a try/catch whose handler clears the WHOLE
storage object on any failure. -/
def write (c : Codec) (key : String) (value : JsVal) (st : Storage) : Storage :=
  match storedString c value with
  | none => st.clear
  | some s =>
    match st.setItem key s with
    | some st' => st'
    | none => st.clear

/-- Embeds `read(key, storageType)` (part_000, lines 33-41): returns `null` when
the raw item is absent, empty, or one of the sentinel strings, and
otherwise parses it with `JSON.parse` — with NO try/catch, so a parse
failure escapes to the caller. -/
def read (c : Codec) (key : String) (st : Storage) : Except JsErr (Option JsVal) :=
  match st.getItem key with
  | none => .ok none
  | some data =>
    if data = "" ∨ data = "null" ∨ data = "undefined" ∨
        data = "\x7b\x7d" ∨ data = "[]" then .ok none
    else
      match c.parse data with
      | some v => .ok (some v)
      | none => .error (.parseError data)

/-! ### The executable `jsonLite` codec

A concrete JSON codec over the `JsVal` grammar: the printer follows
`JSON.stringify` (no whitespace; string escapes are not modeled, so it is
faithful on strings without quotes or backslashes), and the reader is a
fuel-indexed recursive-descent reader that accepts exactly the printed
forms and rejects everything else. -/

/-- The opening-brace character, by code point. -/
def lbraceChar : Char := Char.ofNat 123

/-- The closing-brace character, by code point. -/
def rbraceChar : Char := Char.ofNat 125

mutual
/-- Embeds `JSON.stringify` on `JsVal` (escape-free strings). -/
def stringifyCore : JsVal → String
  | .jundef => "null"
  | .jnull => "null"
  | .jbool b => if b then "true" else "false"
  | .jnum n => toString n
  | .jstr s => "\"" ++ s ++ "\""
  | .jarrNil => "[]"
  | .jarrCons h t => "[" ++ stringifyCore h ++ arrTailStr t
  | .jobjNil => "\x7b\x7d"
  | .jobjCons k v rest =>
    "\x7b\"" ++ k ++ "\":" ++ stringifyCore v ++ objTailStr rest

/-- Remaining items of an array literal. -/
def arrTailStr : JsVal → String
  | .jarrCons h t => "," ++ stringifyCore h ++ arrTailStr t
  | _ => "]"

/-- Remaining members of an object literal. -/
def objTailStr : JsVal → String
  | .jobjCons k v rest => ",\"" ++ k ++ "\":" ++ stringifyCore v ++ objTailStr rest
  | _ => "\x7d"
end

/-- Reads an escape-free string body up to the closing quote. -/
def takeStr : List Char → Option (String × List Char)
  | [] => none
  | c :: rest =>
    if c = '"' then some ("", rest)
    else
      match takeStr rest with
      | some (s, r) => some (String.mk (c :: s.data), r)
      | none => none

/-- Splits a leading run of decimal digits. -/
def takeDigits : List Char → List Nat × List Char
  | [] => ([], [])
  | c :: rest =>
    if c.isDigit then
      let (ds, r) := takeDigits rest
      ((c.toNat - 48) :: ds, r)
    else ([], c :: rest)

/-- Value of a digit run. -/
def digitsToNat (ds : List Nat) : Nat := ds.foldl (fun acc d => acc * 10 + d) 0

/-- Reads a natural-number literal. -/
def takeNum (cs : List Char) : Option (Nat × List Char) :=
  match takeDigits cs with
  | ([], _) => none
  | (ds, r) => some (digitsToNat ds, r)

mutual
/-- Fuel-indexed recursive-descent JSON reader: one value. -/
def readVal : Nat → List Char → Option (JsVal × List Char)
  | 0, _ => none
  | _ + 1, [] => none
  | fuel + 1, c :: rest =>
    if c = 'n' then
      match rest with
      | 'u' :: 'l' :: 'l' :: r => some (.jnull, r)
      | _ => none
    else if c = 't' then
      match rest with
      | 'r' :: 'u' :: 'e' :: r => some (.jbool true, r)
      | _ => none
    else if c = 'f' then
      match rest with
      | 'a' :: 'l' :: 's' :: 'e' :: r => some (.jbool false, r)
      | _ => none
    else if c = '"' then
      match takeStr rest with
      | some (s, r) => some (.jstr s, r)
      | none => none
    else if c = '-' then
      match takeNum rest with
      | some (n, r) => some (.jnum (-(n : Int)), r)
      | none => none
    else if c.isDigit then
      match takeNum (c :: rest) with
      | some (n, r) => some (.jnum (n : Int), r)
      | none => none
    else if c = '[' then
      match rest with
      | ']' :: r => some (.jarrNil, r)
      | _ => readArrItems fuel rest
    else if c = lbraceChar then
      match rest with
      | c2 :: r => if c2 = rbraceChar then some (.jobjNil, r) else readObjItems fuel rest
      | [] => none
    else none

/-- Fuel-indexed reader: array items after the opening bracket. -/
def readArrItems : Nat → List Char → Option (JsVal × List Char)
  | 0, _ => none
  | fuel + 1, cs =>
    match readVal fuel cs with
    | none => none
    | some (v, r) =>
      match r with
      | ',' :: r2 =>
        match readArrItems fuel r2 with
        | some (tail, r3) => some (.jarrCons v tail, r3)
        | none => none
      | ']' :: r2 => some (.jarrCons v .jarrNil, r2)
      | _ => none

/-- Fuel-indexed reader: object members after the opening brace. -/
def readObjItems : Nat → List Char → Option (JsVal × List Char)
  | 0, _ => none
  | fuel + 1, cs =>
    match cs with
    | '"' :: r =>
      match takeStr r with
      | some (k, r1) =>
        match r1 with
        | ':' :: r2 =>
          match readVal fuel r2 with
          | some (v, r3) =>
            match r3 with
            | ',' :: r4 =>
              match readObjItems fuel r4 with
              | some (tail, r5) => some (.jobjCons k v tail, r5)
              | none => none
            | c4 :: r4 =>
              if c4 = rbraceChar then some (.jobjCons k v .jobjNil, r4) else none
            | [] => none
          | none => none
        | _ => none
      | none => none
    | _ => none
end

/-- The executable JSON codec: print with `stringifyCore`, read with the
fuel-indexed reader, requiring full consumption of the input (as
`JSON.parse` does). -/
def jsonLite : Codec where
  stringify v := some (stringifyCore v)
  parse s :=
    match readVal (s.length + 1) s.data with
    | some (v, []) => some v
    | _ => none

/-- C10: when serialization or the underlying storage set operation
throws inside `write`, the catch handler clears the ENTIRE storage
object: every key of that storage reads back as absent afterwards. -/
theorem write_failure_clears_all (c : Codec) (key : String) (value : JsVal)
    (st : Storage)
    (h : storedString c value = none ∨
      ∃ s, storedString c value = some s ∧ st.setItem key s = none) :
    (write c key value st).entries = [] ∧
    ∀ k, (write c key value st).getItem k = none := by
  have hw : write c key value st = st.clear := by
    rcases h with h | ⟨s, hs, hset⟩
    · simp [write, h]
    · simp [write, hs, hset]
  refine ⟨by simp [hw, Storage.clear], fun k => ?_⟩
  simp [hw, Storage.clear, Storage.getItem, getKey]

/-- Codec whose serializer always throws (stands in for a value
`JSON.stringify` cannot serialize). -/
def failingCodec : Codec where
  stringify _ := none
  parse _ := none

/-- Witness for C10 at a concrete input: a truthy object value whose
serialization throws, over a storage holding another entry; the write
erases that other entry. -/
theorem write_failure_clears_all_witness :
    (write failingCodec "k" (.jobjCons "a" .jnull .jobjNil)
        ⟨[("other", "kept")], 100⟩).entries = [] ∧
    ∀ k, (write failingCodec "k" (.jobjCons "a" .jnull .jobjNil)
        ⟨[("other", "kept")], 100⟩).getItem k = none :=
  write_failure_clears_all failingCodec "k" (.jobjCons "a" .jnull .jobjNil)
    ⟨[("other", "kept")], 100⟩ (Or.inl rfl)

/-- C4 (amended): storing an entry `\x7bexpiration: E, data: D\x7d` under a
key and reading the key back returns the entry with `data` equal to `D`
unchanged, for any codec behaving like JSON on that entry (round-trip at
the entry, printed form not empty and not one of the read sentinels) and
a storage write that succeeds; but unparseable stored content makes
`read` RAISE the parse error — it is NOT treated as a cache miss. -/
theorem write_read_roundtrip (c : Codec) (key : String) (E D : JsVal)
    (st : Storage) (s : String)
    (hser : c.stringify (.jobjCons "expiration" E (.jobjCons "data" D .jobjNil)) = some s)
    (hs0 : s ≠ "") (hs1 : s ≠ "null") (hs2 : s ≠ "undefined")
    (hs3 : s ≠ "\x7b\x7d") (hs4 : s ≠ "[]")
    (hset : st.setItem key s ≠ none)
    (hparse : c.parse s = some (.jobjCons "expiration" E (.jobjCons "data" D .jobjNil))) :
    read c key (write c key (.jobjCons "expiration" E (.jobjCons "data" D .jobjNil)) st) =
      .ok (some (.jobjCons "expiration" E (.jobjCons "data" D .jobjNil))) ∧
    (JsVal.jobjCons "expiration" E (.jobjCons "data" D .jobjNil)).getProp "data" = some D ∧
    (∀ st2 raw, st2.getItem key = some raw → raw ≠ "" → raw ≠ "null" →
      raw ≠ "undefined" → raw ≠ "\x7b\x7d" → raw ≠ "[]" → c.parse raw = none →
      read c key st2 = .error (.parseError raw)) := by
  refine ⟨?_, ?_, ?_⟩
  · have htr : JsVal.truthy (.jobjCons "expiration" E (.jobjCons "data" D .jobjNil)) = true := rfl
    have hss : storedString c (.jobjCons "expiration" E (.jobjCons "data" D .jobjNil)) = some s := by
      simp [storedString, htr, hser]
    cases hst : st.setItem key s with
    | none => exact absurd hst hset
    | some st' =>
      have hw : write c key (.jobjCons "expiration" E (.jobjCons "data" D .jobjNil)) st = st' := by
        simp [write, hss, hst]
      have hentries : st'.entries = setKey st.entries key s := by
        unfold Storage.setItem at hst
        by_cases hcap : ({ st with entries := setKey st.entries key s } : Storage).usage ≤ st.capacity
        · simp only [hcap, if_true] at hst
          cases hst
          rfl
        · simp [hcap] at hst
      have hget : st'.getItem key = some s := by
        simp [Storage.getItem, hentries, getKey_setKey_self]
      simp [hw, read, hget, hs0, hs1, hs2, hs3, hs4, hparse]
  · simp [JsVal.getProp]
  · intro st2 raw hget h0 h1 h2 h3 h4 hp
    simp [read, hget, h0, h1, h2, h3, h4, hp]

/-- C4 counterexample to the claim as stated: a stored string that is not
parseable JSON makes `read` raise the parse error to the caller instead
of returning a cache miss. -/
theorem read_unparseable_raises :
    read jsonLite "K" ⟨[("K", "not-json")], 1000⟩ =
      .error (.parseError "not-json") ∧
    read jsonLite "K" ⟨[("K", "not-json")], 1000⟩ ≠ .ok none := by
  refine ⟨rfl, ?_⟩
  intro h
  rw [show read jsonLite "K" ⟨[("K", "not-json")], 1000⟩ =
      .error (.parseError "not-json") from rfl] at h
  exact Except.noConfusion h

/-- Witness for the amended C4 at a concrete entry, through the
executable `jsonLite` codec. -/
theorem write_read_roundtrip_witness :
    read jsonLite "k" (write jsonLite "k"
        (.jobjCons "expiration" .jnull (.jobjCons "data" (.jstr "x") .jobjNil))
        ⟨[], 1000⟩) =
      .ok (some (.jobjCons "expiration" .jnull
        (.jobjCons "data" (.jstr "x") .jobjNil))) ∧
    (JsVal.jobjCons "expiration" .jnull
        (.jobjCons "data" (.jstr "x") .jobjNil)).getProp "data" =
      some (.jstr "x") := by
  have h := write_read_roundtrip jsonLite "k" .jnull (.jstr "x") ⟨[], 1000⟩
    (stringifyCore (.jobjCons "expiration" .jnull
      (.jobjCons "data" (.jstr "x") .jobjNil)))
    rfl (by decide) (by decide) (by decide) (by decide) (by decide)
    (by decide) (by decide)
  exact ⟨h.1, h.2.1⟩

/-! ## `cacheAsyncCallback` and `dateNextDays` (part_000, lines 51-102)

This layer is modeled over parsed entries (the string/JSON layer is the
`write`/`read` embedding above): the persisted store maps keys to
`CachedEntry` records, and time is an integer millisecond clock. -/

/-- A persisted cache entry `\x7bexpiration, data\x7d`; `none` models the
`null` expiration produced by `dateNextDays` without days. -/
structure CacheEntry where
  expiration : Option Int
  data : JsVal
deriving DecidableEq, Repr

/-- The persisted cache store, keyed by the caller-supplied string. -/
abbrev CStore := List (String × CacheEntry)

/-- Embeds `dateNextDays(days)`: `null` when `!days` (absent or zero), otherwise
the date `days` days from now (modeled as milliseconds). -/
def dateNextDays (days : Option Nat) (now : Int) : Option Int :=
  match days with
  | none => none
  | some 0 => none
  | some d => some (now + (d : Int) * 86400000)

/-- Embeds `cacheAsyncCallback(key, promise, \x7bexpirationInDays, storageType\x7d)`
(part_000, lines 77-102): throws on an empty key; on a present entry with
a truthy expiration in the past, fires a background refresh (whose
producer failure is swallowed and whose success rewrites the entry) and
returns the stale data immediately; on a present entry otherwise returns
its data; on a miss awaits the producer, stores and returns its result,
propagating its failure.  The returned store is the state after the
background refresh, if any, has settled. -/
def cacheAsyncCallback (key : String) (producer : Except JsErr JsVal)
    (expirationInDays : Option Nat) (now : Int) (store : CStore) :
    Except JsErr (JsVal × CStore) :=
  if key = "" then .error (.errMsg "[key] is required.")
  else
    let cache := getKey store key
    let store1 :=
      match cache with
      | some entry =>
        match entry.expiration with
        | some e =>
          if e ≠ 0 ∧ now > e then
            match producer with
            | .ok d => setKey store key ⟨dateNextDays expirationInDays now, d⟩
            | .error _ => store
          else store
        | none => store
      | none => store
    match cache with
    | some entry => .ok (entry.data, store1)
    | none =>
      match producer with
      | .ok d => .ok (d, setKey store key ⟨dateNextDays expirationInDays now, d⟩)
      | .error e => .error e

/-- C3: with a stored entry whose expiration is in the past,
`cacheAsyncCallback` returns the stale data whatever the producer does
(so it does not await it); on producer success the stored entry is
overwritten with the fresh data and expiration `now + expirationInDays`
(through `dateNextDays`); and when `expirationInDays` is absent or zero
the refreshed entry has no expiration, so any later call returns the
refreshed data with the store untouched and no further refresh. -/
theorem cache_stale_while_revalidate (key : String) (store : CStore) (e : Int)
    (d0 : JsVal) (days : Option Nat) (now : Int)
    (hkey : key ≠ "") (hentry : getKey store key = some ⟨some e, d0⟩)
    (he0 : e ≠ 0) (hexp : now > e) :
    (∀ producer, ∃ st', cacheAsyncCallback key producer days now store = .ok (d0, st')) ∧
    (∀ d, cacheAsyncCallback key (.ok d) days now store =
      .ok (d0, setKey store key ⟨dateNextDays days now, d⟩)) ∧
    ((days = none ∨ days = some 0) → ∀ d producer2 days2 now2,
      cacheAsyncCallback key producer2 days2 now2
          (setKey store key ⟨dateNextDays days now, d⟩) =
        .ok (d, setKey store key ⟨dateNextDays days now, d⟩)) := by
  refine ⟨?_, ?_, ?_⟩
  · intro producer
    cases producer with
    | ok d =>
      refine ⟨setKey store key ⟨dateNextDays days now, d⟩, ?_⟩
      simp [cacheAsyncCallback, hkey, hentry, he0, hexp]
    | error err =>
      refine ⟨store, ?_⟩
      simp [cacheAsyncCallback, hkey, hentry, he0, hexp]
  · intro d
    simp [cacheAsyncCallback, hkey, hentry, he0, hexp]
  · rintro (h | h) d producer2 days2 now2 <;> subst h <;>
      simp [cacheAsyncCallback, hkey, dateNextDays, getKey_setKey_self]

/-- Witness for C3 at a concrete input: a stale entry under key `k`,
refreshed by a successful producer with no `expirationInDays`. -/
theorem cache_stale_while_revalidate_witness :
    cacheAsyncCallback "k" (.ok (.jstr "new")) none 10
        [("k", ⟨some 5, .jstr "old"⟩)] =
      .ok (.jstr "old",
        setKey [("k", ⟨some 5, .jstr "old"⟩)] "k" ⟨dateNextDays none 10, .jstr "new"⟩) := by
  have h := cache_stale_while_revalidate "k" [("k", ⟨some 5, .jstr "old"⟩)] 5
    (.jstr "old") none 10 (by decide) (by decide) (by decide) (by decide)
  exact h.2.1 (.jstr "new")

/-! ## AuthenticationService (part_003)

The MSAL provider context is an external collaborator; it is modeled by
the query results the service reads from it.  The service record carries
the singleton in-flight handles, the session-state object, the
`window.localStorage` contents touched by the corrupt-cache recovery, and
instrumentation counters for provider invocations (one per silent-flow
call, one per interactive-flow call), used to state the no-duplicate-flow
and no-provider-contact properties. -/

/-- Account data returned by `context.getAccount()`; an `Option` field
models a possibly absent (`undefined`) property. -/
structure MsalAccount where
  accountIdentifier : Option String
  userName : Option String
  idTokenClaims : Option JsVal
deriving DecidableEq, Repr

instance {E A : Type} [DecidableEq E] [DecidableEq A] :
    DecidableEq (Except E A) := fun a b =>
  match a, b with
  | .ok x, .ok y =>
    if h : x = y then isTrue (by rw [h]) else isFalse (by intro he; cases he; exact h rfl)
  | .error x, .error y =>
    if h : x = y then isTrue (by rw [h]) else isFalse (by intro he; cases he; exact h rfl)
  | .ok _, .error _ => isFalse (by intro he; cases he)
  | .error _, .ok _ => isFalse (by intro he; cases he)

/-- The provider context, by the results of the queries the service
performs against it. -/
structure Ctx where
  account : Option MsalAccount
  loginInProgress : Bool
  getCachedTokenInternalResult : Except JsErr JsVal
  acquireTokenSilentResult : Except JsErr JsVal
deriving DecidableEq, Repr

/-- Settlement status of the promise created by `login`. -/
inductive POutcome where
  | resolvedState (s : Obj JsVal)
  | rejectedErr (e : JsErr)
  | pending
deriving DecidableEq, Repr

/-- A promise handle: an identity plus the settlement the synchronous
part of the executor determines. -/
structure Prom where
  pid : Nat
  outcome : POutcome
deriving DecidableEq, Repr

/-- The AuthenticationService singleton state. -/
structure Svc where
  disabled : Bool
  context : Option Ctx
  state : Obj JsVal
  AuthenticatingPromise : Option Prom
  acquireTokenPromise : Option (Except JsErr JsVal)
  acquireTokenInProgress : Bool
  ErrorProp : Option JsErr
  localStorageEntries : List (String × String)
  nextPid : Nat
  silentCalls : Nat
  interactiveCalls : Nat
deriving Repr

/-- Embeds `AuthenticationService.setState(changes)` applied to the service
(the observer broadcast is the Boolean of `setState`, not kept here). -/
def Svc.applySetState (svc : Svc) (changes : Obj JsVal) : Svc :=
  { svc with state := (setState svc.state changes).1 }

/-- Embeds `isAuthenticated()`: `disabled || !!context.getAccount()`; reading
the account of a `null` context throws a TypeError. -/
def isAuthenticatedE (svc : Svc) : Except JsErr Bool :=
  if svc.disabled then .ok true
  else
    match svc.context with
    | some c => .ok c.account.isSome
    | none => .error (.typeError "Cannot read getAccount of null")

/-- Embeds `init(config, disabled)` (part_003, lines 56-75): records the
disabled flag, constructs the provider context only when enabled, and
establishes the initial session state through `setState` (the disjuncts
short-circuit, so a `null` context is never dereferenced when
disabled). -/
def init (provCtx : Ctx) (disabled : Bool) : Svc :=
  let base : Svc := {
    disabled := disabled
    context := if disabled then none else some provCtx
    state := []
    AuthenticatingPromise := none
    acquireTokenPromise := none
    acquireTokenInProgress := false
    ErrorProp := none
    localStorageEntries := []
    nextPid := 0
    silentCalls := 0
    interactiveCalls := 0 }
  base.applySetState
    [("authenticated", .jbool (disabled ||
        (match base.context with | some c => c.account.isSome | none => false))),
     ("authenticating", .jbool (!disabled &&
        (match base.context with | some c => c.loginInProgress | none => false)))]

/-- Embeds `login(config)` (part_003, lines 253-298), synchronous semantics of
the executor: `null` when disabled; the memoized
`AuthenticatingPromise` when one is set; otherwise a new promise is
created and memoized — resolved immediately with the current session
state when `isAuthenticated()`, and otherwise left pending after setting
`authenticating` and issuing the silent provider call (the interactive
fallback and the settlement happen asynchronously). -/
def login (svc : Svc) : Option Prom × Svc :=
  if svc.disabled then (none, svc)
  else
    match svc.AuthenticatingPromise with
    | some p => (some p, svc)
    | none =>
      match isAuthenticatedE svc with
      | .ok true =>
        let p : Prom := ⟨svc.nextPid, .resolvedState svc.state⟩
        (some p, { svc with AuthenticatingPromise := some p,
                            nextPid := svc.nextPid + 1 })
      | .ok false =>
        let svc1 := svc.applySetState [("authenticating", .jbool true)]
        let p : Prom := ⟨svc.nextPid, .pending⟩
        (some p, { svc1 with AuthenticatingPromise := some p,
                             nextPid := svc.nextPid + 1,
                             silentCalls := svc.silentCalls + 1 })
      | .error err =>
        let p : Prom := ⟨svc.nextPid, .rejectedErr err⟩
        (some p, { svc with AuthenticatingPromise := some p,
                            nextPid := svc.nextPid + 1 })

/-- The n-th `login()` call of a sequence starting from `svc` (index 0 is
the first call). -/
def loginSeq (svc : Svc) : Nat → Option Prom × Svc
  | 0 => login svc
  | n + 1 => login (loginSeq svc n).2

/-- Embeds `acquireTokenInCache(config)` (part_003, lines 118-134): `null` when
disabled; otherwise the provider token-cache lookup, whose catch handler
clears ALL of `window.localStorage` exactly when the error carries
`errorCode === 'cannot_parse_cache'`, and re-raises the same error. -/
def acquireTokenInCache (svc : Svc) : Except JsErr JsVal × Svc :=
  if svc.disabled then (.ok .jnull, svc)
  else
    match svc.context with
    | none => (.error (.typeError "Cannot read getCachedTokenInternal of null"), svc)
    | some c =>
      match c.getCachedTokenInternalResult with
      | .ok v => (.ok v, svc)
      | .error e =>
        if e.errorCode = some "cannot_parse_cache" then
          (.error e, { svc with localStorageEntries := [] })
        else (.error e, svc)

/-- Embeds `acquireTokenSilent(config)` (part_003, lines 147-165): `null` when
disabled; the memoized in-flight promise when one is marked in progress;
otherwise the provider silent call is issued (counted), memoized, and its
in-progress marker cleared on settlement by the `finally`.  The outer
`Except` layer carries a synchronous throw (a `null` context), as
distinct from the settlement of the returned promise. -/
def acquireTokenSilent (svc : Svc) :
    Except JsErr (Option (Except JsErr JsVal)) × Svc :=
  if svc.disabled then (.ok none, svc)
  else if svc.acquireTokenPromise.isSome && svc.acquireTokenInProgress then
    (.ok svc.acquireTokenPromise, svc)
  else
    match svc.context with
    | none => (.error (.typeError "Cannot read setAcquireTokenInProgress of null"), svc)
    | some c =>
      let res := c.acquireTokenSilentResult
      (.ok (some res),
       { svc with acquireTokenInProgress := false,
                  acquireTokenPromise := some res,
                  silentCalls := svc.silentCalls + 1 })

/-- Settlement of the promise returned by `acquireToken`: the outer
`.catch((error) => AuthenticationService.Error = error)` converts every
rejection into a resolution carrying the error value, so the promise
either resolves or stays pending — it never rejects to the caller. -/
inductive AcqOutcome where
  | resolved (v : JsVal)
  | resolvedErrVal (e : JsErr)
  | pending
deriving DecidableEq, Repr

/-- Whether the settlement is an (immediate) resolution. -/
def AcqOutcome.isSettledResolved : AcqOutcome → Bool
  | .pending => false
  | _ => true

/-- The shared tail of `acquireToken`: the fall-through to
`acquireTokenSilent(...).then(resolve).catch(() => login())` — a `null`
return (disabled) makes the executor throw a TypeError on `.then`, which
the outer catch turns into a resolution with the error value; a silent
failure falls back to `login()` and leaves the promise pending (resolve
is never called on that path). -/
def acquireTokenViaSilent (svc : Svc) : AcqOutcome × Svc :=
  let r := acquireTokenSilent svc
  match r.1 with
  | .error e => (.resolvedErrVal e, { r.2 with ErrorProp := some e })
  | .ok none =>
    (.resolvedErrVal (.typeError "Cannot read then of null"),
     { r.2 with ErrorProp := some (.typeError "Cannot read then of null") })
  | .ok (some (.ok account)) => (.resolved account, r.2)
  | .ok (some (.error _)) => (.pending, (login r.2).2)

/-- Embeds `acquireToken(config)` (part_003, lines 177-205): unless forcing a
refresh, tries the synchronous provider cache first and resolves with a
cached token carrying both an access and an identity token; a throw of
the cache lookup rejects the executor and the outer catch resolves with
the error value after recording it in `AuthenticationService.Error`;
otherwise it falls through to the silent path. -/
def acquireToken (svc : Svc) (forceTokenRefresh : Bool) : AcqOutcome × Svc :=
  if forceTokenRefresh = false then
    let r := acquireTokenInCache svc
    match r.1 with
    | .error e => (.resolvedErrVal e, { r.2 with ErrorProp := some e })
    | .ok cached =>
      if cached.truthy && cached.propTruthy "accessToken" &&
          cached.propTruthy "idToken" then
        (.resolved cached, r.2)
      else
        acquireTokenViaSilent r.2
  else
    acquireTokenViaSilent svc

/-- Embeds `getAccount()` (part_003, lines 366-372): `null` when disabled,
otherwise the provider account (a `null` context throws). -/
def getAccount (svc : Svc) : Except JsErr (Option MsalAccount) :=
  if svc.disabled then .ok none
  else
    match svc.context with
    | some c => .ok c.account
    | none => .error (.typeError "Cannot read getAccount of null")

/-- Embeds `getRoles()` (part_003, lines 418-429): `null` when disabled;
otherwise destructures `idTokenClaims` out of `getAccount() ?? \x7b\x7d`
and, via `Object.prototype.hasOwnProperty`, returns the `roles` claim
when present and `null` when absent (`hasOwnProperty.call` throws a
TypeError on an `undefined` or `null` claims value). -/
def getRoles (svc : Svc) : Except JsErr JsVal :=
  if svc.disabled then .ok .jnull
  else
    match getAccount svc with
    | .error e => .error e
    | .ok acctOpt =>
      let claims : Option JsVal :=
        match acctOpt with
        | some a => a.idTokenClaims
        | none => none
      match claims with
      | none => .error (.typeError "Cannot convert undefined to object")
      | some .jundef => .error (.typeError "Cannot convert undefined to object")
      | some .jnull => .error (.typeError "Cannot convert null to object")
      | some cl =>
        match cl.getProp "roles" with
        | some r => .ok r
        | none => .ok .jnull

theorem login_memo (svc : Svc) (p : Prom) (hd : svc.disabled = false)
    (hp : svc.AuthenticatingPromise = some p) : login svc = (some p, svc) := by
  simp [login, hd, hp]

theorem login_after (svc : Svc) (hd : svc.disabled = false) :
    (login svc).2.AuthenticatingPromise = (login svc).1 ∧
    (login svc).2.disabled = false := by
  unfold login
  simp only [hd, Bool.false_eq_true, if_false]
  cases hp : svc.AuthenticatingPromise with
  | some p => exact ⟨hp, hd⟩
  | none =>
    cases hia : isAuthenticatedE svc with
    | ok b => cases b <;> exact ⟨rfl, by first | rfl | exact hd⟩
    | error e => exact ⟨rfl, rfl⟩

theorem loginSeq_const (svc : Svc) (hd : svc.disabled = false) :
    ∀ n, loginSeq svc n = ((login svc).1, (login svc).2) := by
  intro n
  induction n with
  | zero => rfl
  | succ n ih =>
    show login (loginSeq svc n).2 = _
    rw [ih]
    have h := login_after svc hd
    cases hp : (login svc).1 with
    | some p => exact login_memo (login svc).2 p h.2 (h.1.trans hp)
    | none =>
      exfalso
      revert hp
      unfold login
      simp only [hd, Bool.false_eq_true, if_false]
      cases hq : svc.AuthenticatingPromise with
      | some q => simp
      | none =>
        cases hia : isAuthenticatedE svc with
        | ok b => cases b <;> simp
        | error e => simp

/-- C1: once a first `login()` call has installed the singleton
in-flight promise handle, every later call in the sequence returns the
SAME handle as the first and initiates no further silent or interactive
provider flow (the counters stay at their value after the first call);
and when `isAuthenticated()` is already true as the flow starts, the
created promise is resolved immediately with the current session
state. -/
theorem login_singleton (svc : Svc) (hd : svc.disabled = false) :
    (∀ n, (loginSeq svc n).1 = (login svc).1) ∧
    (∀ n, (loginSeq svc n).2.silentCalls = (login svc).2.silentCalls ∧
      (loginSeq svc n).2.interactiveCalls = (login svc).2.interactiveCalls) ∧
    (svc.AuthenticatingPromise = none → isAuthenticatedE svc = .ok true →
      (login svc).1 = some ⟨svc.nextPid, .resolvedState svc.state⟩) := by
  refine ⟨fun n => by rw [loginSeq_const svc hd n],
    fun n => by rw [loginSeq_const svc hd n]; exact ⟨rfl, rfl⟩, ?_⟩
  intro hp hauth
  unfold login
  simp [hd, hp, hauth]

/-- A provider context with an existing signed-in account. -/
def ctxSignedIn : Ctx :=
  ⟨some ⟨some "id-1", some "user at example", none⟩, false, .ok .jnull, .ok .jnull⟩

/-- Witness for C1: an initialized, enabled, already-authenticated
service; the second call returns the first handle, no further flow is
counted, and the first handle is resolved with the current state. -/
theorem login_singleton_witness :
    (loginSeq (init ctxSignedIn false) 1).1 = (login (init ctxSignedIn false)).1 ∧
    (loginSeq (init ctxSignedIn false) 1).2.silentCalls =
      (login (init ctxSignedIn false)).2.silentCalls ∧
    (login (init ctxSignedIn false)).1 =
      some ⟨(init ctxSignedIn false).nextPid,
        .resolvedState (init ctxSignedIn false).state⟩ := by
  have h := login_singleton (init ctxSignedIn false) rfl
  exact ⟨h.1 1, (h.2.1 1).1, h.2.2 rfl rfl⟩

/-- C5: after `init` with `disabled` true, `isAuthenticated()` is true,
`login()` returns null immediately leaving the service untouched, and
`acquireToken()` settles resolved (never rejecting to the caller) with
zero provider invocations — the silent/interactive counters stay 0. -/
theorem disabled_mode_noop (provCtx : Ctx) (f : Bool) :
    isAuthenticatedE (init provCtx true) = .ok true ∧
    login (init provCtx true) = (none, init provCtx true) ∧
    (acquireToken (init provCtx true) f).1.isSettledResolved = true ∧
    (acquireToken (init provCtx true) f).2.silentCalls = 0 ∧
    (acquireToken (init provCtx true) f).2.interactiveCalls = 0 ∧
    (init provCtx true).silentCalls = 0 ∧
    (init provCtx true).interactiveCalls = 0 := by
  refine ⟨rfl, rfl, ?_, ?_, ?_, rfl, rfl⟩ <;> cases f <;> rfl

/-- Witness for C5 at a concrete provider context and default (false)
`forceTokenRefresh`. -/
theorem disabled_mode_noop_witness :
    isAuthenticatedE (init ctxSignedIn true) = .ok true ∧
    login (init ctxSignedIn true) = (none, init ctxSignedIn true) ∧
    (acquireToken (init ctxSignedIn true) false).1.isSettledResolved = true ∧
    (acquireToken (init ctxSignedIn true) false).2.silentCalls = 0 ∧
    (acquireToken (init ctxSignedIn true) false).2.interactiveCalls = 0 ∧
    (init ctxSignedIn true).silentCalls = 0 ∧
    (init ctxSignedIn true).interactiveCalls = 0 :=
  disabled_mode_noop ctxSignedIn false

/-- C6: when the provider token-cache lookup throws, the error is
re-raised unchanged to the caller, and the browser-persisted auth storage
(`window.localStorage`) is cleared exactly when the error carries
`errorCode === 'cannot_parse_cache'`; any other error leaves the storage
untouched. -/
theorem acquireTokenInCache_corrupt_clears (svc : Svc) (c : Ctx) (e : JsErr)
    (hd : svc.disabled = false) (hc : svc.context = some c)
    (he : c.getCachedTokenInternalResult = .error e) :
    (acquireTokenInCache svc).1 = .error e ∧
    (acquireTokenInCache svc).2.localStorageEntries =
      (if e.errorCode = some "cannot_parse_cache" then []
       else svc.localStorageEntries) := by
  unfold acquireTokenInCache
  simp only [hd, Bool.false_eq_true, if_false, hc, he]
  by_cases hcode : e.errorCode = some "cannot_parse_cache" <;> simp [hcode]

/-- A provider context whose token-cache lookup raises the corrupt-cache
error. -/
def ctxCorrupt : Ctx :=
  ⟨none, false, .error (.msalErr "cannot_parse_cache"), .ok .jnull⟩

/-- An enabled service over `ctxCorrupt` with auth entries persisted in
`window.localStorage`. -/
def svcCorrupt : Svc :=
  { init ctxCorrupt false with localStorageEntries := [("msal.token", "garbage")] }

/-- Witness for C6 at a concrete corrupt-cache error: the storage is
cleared and the same error re-raised. -/
theorem acquireTokenInCache_corrupt_clears_witness :
    (acquireTokenInCache svcCorrupt).1 = .error (.msalErr "cannot_parse_cache") ∧
    (acquireTokenInCache svcCorrupt).2.localStorageEntries =
      (if (JsErr.msalErr "cannot_parse_cache").errorCode =
          some "cannot_parse_cache" then []
       else svcCorrupt.localStorageEntries) :=
  acquireTokenInCache_corrupt_clears svcCorrupt ctxCorrupt
    (.msalErr "cannot_parse_cache") rfl rfl rfl

/-- C9 (amended): with authentication enabled and a current account whose
identity-token claims are an object without a `roles` entry, `getRoles`
SUCCEEDS with `null` (no roles assigned) — it does not fail with a
missing-claim error. -/
theorem getRoles_missing_returns_null (svc : Svc) (c : Ctx) (a : MsalAccount)
    (cl : JsVal) (hd : svc.disabled = false) (hc : svc.context = some c)
    (ha : c.account = some a) (hcl : a.idTokenClaims = some cl)
    (hnu : cl ≠ .jundef) (hnn : cl ≠ .jnull)
    (hroles : cl.getProp "roles" = none) :
    getRoles svc = .ok .jnull := by
  unfold getRoles getAccount
  simp only [hd, Bool.false_eq_true, if_false, hc, ha, hcl]
  cases cl with
  | jundef => exact absurd rfl hnu
  | jnull => exact absurd rfl hnn
  | jbool b => simp [hroles] at hroles ⊢
  | jnum n => simp [hroles] at hroles ⊢
  | jstr s => simp [hroles] at hroles ⊢
  | jarrNil => simp [hroles] at hroles ⊢
  | jarrCons h t => simp [hroles] at hroles ⊢
  | jobjNil => simp [hroles] at hroles ⊢
  | jobjCons k v rest => simp [hroles]

/-- A provider context whose account has identity-token claims without a
`roles` entry. -/
def ctxNoRoles : Ctx :=
  ⟨some ⟨some "id-2", some "user two", some (.jobjCons "aud" (.jstr "api") .jobjNil)⟩,
    false, .ok .jnull, .ok .jnull⟩

/-- C9 counterexample to the claim as stated: with claims lacking a
`roles` entry, `getRoles` evaluates to the successful value `null`, not
to an error. -/
theorem getRoles_no_roles_not_error :
    getRoles (init ctxNoRoles false) = .ok .jnull := rfl

/-- Witness for the amended C9 at the same concrete service. -/
theorem getRoles_missing_returns_null_witness :
    getRoles (init ctxNoRoles false) = .ok .jnull :=
  getRoles_missing_returns_null (init ctxNoRoles false) ctxNoRoles
    ⟨some "id-2", some "user two", some (.jobjCons "aud" (.jstr "api") .jobjNil)⟩
    (.jobjCons "aud" (.jstr "api") .jobjNil) rfl rfl rfl rfl
    (by decide) (by decide) (by decide)

end ReactMsal
